import Mathlib

/-!
Shallow embedding of the `autofolio` patch engine, diff previewer, listing
selector, section classifier and template synthesizer
(`src/autofolio/patcher.py`, `preview.py`, `detector.py`, `profile.py`,
`config.py`), together with theorems settling the specification claims.

File contents are modelled as `List Char` (named `Str`); the filesystem is
abstracted to the content of the single target file (`Option Str`, `none`
meaning the file does not exist); Python exceptions become `Except` values
carrying the exact message string built at the corresponding `raise` site.
-/

/-- File/marker content: Python `str` modelled as a list of characters. -/
abbrev Str := List Char

/-- ASCII lowercasing, modelling Python `str.lower()` on the ASCII range
(the repository's keyword tables are ASCII). -/
def asciiLower (s : Str) : Str :=
  s.map (fun c => if 'A' ≤ c && c ≤ 'Z' then Char.ofNat (c.toNat + 32) else c)

/-- Python whitespace class (`str.isspace` / regex `\s`, ASCII part). -/
def isPySpace (c : Char) : Bool :=
  c = ' ' || c = '\t' || c = '\n' || c = '\x0d' || c = '\x0b' || c = '\x0c'

/-- Python `str.strip()` (ASCII whitespace). -/
def pyStrip (s : Str) : Str :=
  ((s.dropWhile isPySpace).reverse.dropWhile isPySpace).reverse

/-- Python substring test `needle in hay`. -/
def containsSub (needle : Str) : Str → Bool
  | [] => needle.isEmpty
  | c :: rest => needle.isPrefixOf (c :: rest) || containsSub needle rest

/-- Python `s.split(sep)` for a one-character separator: splits at every
occurrence, preserving empty segments. -/
def splitOnChar (sep : Char) : Str → List Str
  | [] => [[]]
  | c :: rest =>
    match splitOnChar sep rest with
    | [] => if c = sep then [[], []] else [[c]]
    | x :: xs => if c = sep then [] :: x :: xs else (c :: x) :: xs

/-- Python `sep.join(parts)`. -/
def joinSep (sep : Str) : List Str → Str
  | [] => []
  | [x] => x
  | x :: xs => x ++ sep ++ joinSep sep xs

/-- Line-boundary characters of Python `str.splitlines`. -/
def isLineBreak (c : Char) : Bool :=
  c = '\n' || c = '\x0d' || c = '\x0b' || c = '\x0c' ||
  c = '\x1c' || c = '\x1d' || c = '\x1e' || c = '\x85' ||
  c = '\u2028' || c = '\u2029'

/-- Python `str.splitlines(keepends=True)`: each line keeps its terminator,
`"\r\n"` counts as a single terminator. -/
def splitlinesKeepends : Str → List Str
  | [] => []
  | c :: rest =>
    if isLineBreak c then
      match rest with
      | c2 :: rest2 =>
        if c = '\x0d' && c2 = '\n' then ['\x0d', '\n'] :: splitlinesKeepends rest2
        else [c] :: splitlinesKeepends (c2 :: rest2)
      | [] => [[c]]
    else
      match splitlinesKeepends rest with
      | [] => [[c]]
      | l :: ls => (c :: l) :: ls

/-- Python `list.insert(idx, x)` for `idx ≤ len` (the only case reached by
the patch engine, which validates indices first). -/
def pyInsert (idx : Nat) (x : α) (l : List α) : List α :=
  l.take idx ++ x :: l.drop idx

/-- The newline normalization both the applier and the simulator perform:
`if not content.endswith("\n"): content += "\n"`. -/
def ensureNL (content : Str) : Str :=
  if content.getLast? = some '\n' then content else content ++ ['\n']

/-- Python `repr` of a string, for the `{marker!r}` interpolation in error
messages (modelled for markers without quotes or escapes). -/
def pyRepr (s : Str) : Str := '\'' :: (s ++ ['\''])

/-- Python truthiness of an `str | None` field (`None` and `""` are falsy). -/
def strOptTruthy : Option Str → Bool
  | none => false
  | some s => !s.isEmpty

/-- The loop in `apply_patches` / `_simulate_patch` for `insert_after_line`:
`for i, line in enumerate(lines): if marker in line: insert_idx = i + 1`
(the accumulator keeps being overwritten, so the last match wins). -/
def lastMatchFold (marker : Str) : List Str → Nat → Option Nat → Option Nat
  | [], _, acc => acc
  | l :: ls, i, acc =>
    lastMatchFold marker ls (i + 1) (if containsSub marker l then some (i + 1) else acc)

/-- The loop in `apply_patches` / `_simulate_patch` for marker-based
`insert_before_line`: first line containing the marker (`break` on match). -/
def firstMatchIdx (marker : Str) : List Str → Nat → Option Nat
  | [], _ => none
  | l :: ls, i => if containsSub marker l then some i else firstMatchIdx marker ls (i + 1)

/-- `config.PatchAction.action`: the five-element `Literal` type. -/
inductive PAction where
  | create
  | replace
  | append
  | insert_after_line
  | insert_before_line
deriving DecidableEq

/-- `config.PatchAction` (pydantic model). -/
structure PatchAction where
  path : Str
  action : PAction
  insert_after_marker : Option Str := none
  target_line : Option Int := none
  content : Str
deriving DecidableEq

/-- Decidable equality for `Except` results, so concrete patch outcomes can
be checked by `decide`. -/
instance exceptDecEq {ε α : Type} [DecidableEq ε] [DecidableEq α] : DecidableEq (Except ε α)
  | .error e, .error e' =>
    if h : e = e' then .isTrue (by rw [h]) else .isFalse (fun hc => h (Except.error.inj hc))
  | .error _, .ok _ => .isFalse (fun hc => Except.noConfusion hc)
  | .ok _, .error _ => .isFalse (fun hc => Except.noConfusion hc)
  | .ok a, .ok a' =>
    if h : a = a' then .isTrue (by rw [h]) else .isFalse (fun hc => h (Except.ok.inj hc))

/-- Message of `raise PatchError(f"Marker not found in {path}: {marker!r}")`. -/
def markerNotFoundMsg (path marker : Str) : Str :=
  ("Marker not found in ").data ++ path ++ (": ").data ++ pyRepr marker

/-- Message of `raise PatchError(f"target_line {tl} out of range for {path} ({n} lines)")`. -/
def lineOutOfRangeMsg (tl : Int) (path : Str) (n : Nat) : Str :=
  ("target_line ").data ++ (toString tl).data ++ (" out of range for ").data ++
    path ++ (" (").data ++ (toString n).data ++ (" lines)").data

/-- `patcher.apply_patches`, restricted to the content transformation it
performs on one target file. `existing` is the target's current content
(`none`: the file does not exist). Each branch mirrors the corresponding
`elif patch.action == ...` block, including the message of every
`raise PatchError(...)`. The `action not in ALLOWED_ACTIONS` guard is
vacuous because `PAction` is the pydantic `Literal` type. -/
def applyPatchContent (existing : Option Str) (patch : PatchAction) : Except Str Str :=
  match patch.action with
  | .create =>
    match existing with
    | some _ => .error (("File already exists (action=create): ").data ++ patch.path)
    | none => .ok patch.content
  | .replace =>
    match existing with
    | none => .error (("File not found (action=replace): ").data ++ patch.path)
    | some _ => .ok patch.content
  | .append =>
    match existing with
    | none => .error (("File not found (action=append): ").data ++ patch.path)
    | some original => .ok (original ++ patch.content)
  | .insert_after_line =>
    match existing with
    | none => .error (("File not found (action=insert_after_line): ").data ++ patch.path)
    | some original =>
      if !strOptTruthy patch.insert_after_marker then
        .error (("insert_after_line requires insert_after_marker for: ").data ++ patch.path)
      else
        let marker := patch.insert_after_marker.getD []
        let lines := splitlinesKeepends original
        match lastMatchFold marker lines 0 none with
        | none => .error (markerNotFoundMsg patch.path marker)
        | some idx => .ok (pyInsert idx (ensureNL patch.content) lines).flatten
  | .insert_before_line =>
    match existing with
    | none => .error (("File not found (action=insert_before_line): ").data ++ patch.path)
    | some original =>
      let lines := splitlinesKeepends original
      match patch.target_line with
      | some tl =>
        let insertIdx : Int := tl - 1
        if insertIdx < 0 || insertIdx > (lines.length : Int) then
          .error (lineOutOfRangeMsg tl patch.path lines.length)
        else
          .ok (pyInsert insertIdx.toNat (ensureNL patch.content) lines).flatten
      | none =>
        if strOptTruthy patch.insert_after_marker then
          let marker := patch.insert_after_marker.getD []
          match firstMatchIdx marker lines 0 with
          | none => .error (markerNotFoundMsg patch.path marker)
          | some idx => .ok (pyInsert idx (ensureNL patch.content) lines).flatten
        else
          .error (("insert_before_line requires insert_after_marker or target_line for: ").data
            ++ patch.path)

/-- `preview._simulate_patch`: the in-memory simulation. Unknown insertion
points fall through to `"".join(lines)` (a silent no-op) instead of raising. -/
def simulatePatch (original : Str) (patch : PatchAction) : Str :=
  match patch.action with
  | .create => patch.content
  | .replace => patch.content
  | .append => original ++ patch.content
  | .insert_after_line =>
    let lines := splitlinesKeepends original
    let marker := patch.insert_after_marker.getD []
    match lastMatchFold marker lines 0 none with
    | some idx => (pyInsert idx (ensureNL patch.content) lines).flatten
    | none => lines.flatten
  | .insert_before_line =>
    let lines := splitlinesKeepends original
    let idx? : Option Nat :=
      match patch.target_line with
      | some tl =>
        let insertIdx : Int := tl - 1
        if insertIdx < 0 || insertIdx > (lines.length : Int) then none
        else some insertIdx.toNat
      | none =>
        if strOptTruthy patch.insert_after_marker then
          firstMatchIdx (patch.insert_after_marker.getD []) lines 0
        else none
    match idx? with
    | some idx => (pyInsert idx (ensureNL patch.content) lines).flatten
    | none => lines.flatten

/-- `pathlib` parsing of a POSIX path string (`patcher._sanitize_path`'s
`cleaned = Path(relative_path)`): absoluteness flag plus components, with
empty and `"."` components dropped as `PurePosixPath` does. -/
def parsePosixPath (s : Str) : Bool × List Str :=
  (s.head? = some '/',
    (splitOnChar '/' s).filter (fun c => !c.isEmpty && !(c == (".").data)))

/-- Lexical `Path.resolve()` on a component list: `".."` pops the last
component (a no-op at the root), `"."` disappears. -/
def normalizeComps (comps : List Str) : List Str :=
  comps.foldl
    (fun acc c =>
      if c == ("..").data then acc.dropLast
      else if c == (".").data then acc
      else acc ++ [c])
    []

/-- `str(path)` for an absolute POSIX path given by its components. -/
def pathStr (comps : List Str) : Str := ("/").data ++ joinSep (("/").data) comps

/-- `patcher._sanitize_path`: rejects absolute paths, resolves
`repo_root / cleaned`, then tests containment with
`str(resolved).startswith(str(repo_root.resolve()))` — a string-prefix
comparison, not a component comparison. `rootComps` are the components of
the absolute `repo_root`. Returns the resolved components on success. -/
def _sanitize_path (rootComps : List Str) (relative_path : Str) : Except Str (List Str) :=
  let parsed := parsePosixPath relative_path
  if parsed.1 then
    .error (("Patch path must be relative, got: ").data ++ relative_path)
  else
    let resolved := normalizeComps (rootComps ++ parsed.2)
    if (pathStr (normalizeComps rootComps)).isPrefixOf (pathStr resolved) then
      .ok resolved
    else
      .error (("Path escapes repo root: ").data ++ relative_path)

/-- `detector.detect_project_listing`, with the five per-format detectors
(`_detect_project_listing_code`, `_html`, `_data`, `_markdown`,
`_content` — the last one is the known-project-directory detector)
abstracted as functions of the scan input: each `result = ...;
if result is not None: return result` step in source order. -/
def detect_project_listing {α β : Type}
    (detectCode detectHtml detectData detectMarkdown detectContent : α → Option β)
    (x : α) : Option β :=
  match detectCode x with
  | some result => some result
  | none =>
    match detectHtml x with
    | some result => some result
    | none =>
      match detectData x with
      | some result => some result
      | none =>
        match detectMarkdown x with
        | some result => some result
        | none => detectContent x

/-- A backtracking matcher: from an input suffix, the list of remainders of
every way the pattern can match a prefix, in the order Python's regex engine
would try them (so the head is the match `re` reports). -/
abbrev Matcher := Str → List Str

/-- Match the empty pattern. -/
def epsM : Matcher := fun s => [s]

/-- Match one character of a class. -/
def charM (p : Char → Bool) : Matcher
  | [] => []
  | c :: rest => if p c then [rest] else []

/-- Match a literal. -/
def litM (w : String) : Matcher := fun s =>
  if w.data.isPrefixOf s then [s.drop w.data.length] else []

/-- Sequencing: remainders in backtracking priority order. -/
def seqM (a b : Matcher) : Matcher := fun s => (a s).flatMap b

/-- Ordered alternation (`x|y`). -/
def altM (a b : Matcher) : Matcher := fun s => a s ++ b s

/-- Greedy `p*` over a character class: longest match first. -/
def manyGreedy (p : Char → Bool) : Matcher := fun s =>
  let n := (s.takeWhile p).length
  (List.range (n + 1)).map (fun k => s.drop (n - k))

/-- Greedy `p+` over a character class. -/
def many1Greedy (p : Char → Bool) : Matcher := seqM (charM p) (manyGreedy p)

/-- Lazy `p*?` over a character class: shortest match first. -/
def manyLazy (p : Char → Bool) : Matcher := fun s =>
  let n := (s.takeWhile p).length
  (List.range (n + 1)).map (fun k => s.drop k)

/-- Lazy `p+?` over a character class. -/
def many1Lazy (p : Char → Bool) : Matcher := seqM (charM p) (manyLazy p)

/-- Greedy `x?`. -/
def optM (a : Matcher) : Matcher := altM a epsM

/-- Regex `\S` (input here is ASCII-range text). -/
def pyNonSpace (c : Char) : Bool := !isPySpace c

/-- Regex `\w` (ASCII range). -/
def pyWord (c : Char) : Bool := c.isAlphanum || c = '_'

/-- Regex `.` without `DOTALL`. -/
def dotNoNL (c : Char) : Bool := c ≠ '\n'

/-- The scan loop of `len(re.findall(pattern, s))`: at each position take
the engine's preferred match and continue after it (non-overlapping),
otherwise advance one character; `fuel` only forces termination. -/
def scanCountFuel (m : Matcher) : Nat → Str → Nat
  | 0, _ => 0
  | _ + 1, [] => if (m []).isEmpty then 0 else 1
  | fuel + 1, c :: rest =>
    match m (c :: rest) with
    | [] => scanCountFuel m fuel rest
    | rem :: _ =>
      if rem.length < (c :: rest).length then 1 + scanCountFuel m fuel rem
      else 1 + scanCountFuel m fuel rest

/-- `len(re.findall(pattern, s))` proper: run the scan with fuel
`s.length + 1`, which always suffices because every step hands a strictly
shorter suffix to the recursive call. -/
def scanCount (m : Matcher) (s : Str) : Nat := scanCountFuel m (s.length + 1) s

/-- The pattern `title\s*[:=]` counted by
`re.findall(r'title\s*[:=]', array_block)` in `_detect_project_listing_code`. -/
def titlePat : Matcher :=
  seqM (litM "title") (seqM (manyGreedy isPySpace) (charM (fun c => c = ':' || c = '=')))

/-- The pattern `description\s*[:=]` counted next to `titlePat`. -/
def descPat : Matcher :=
  seqM (litM "description") (seqM (manyGreedy isPySpace) (charM (fun c => c = ':' || c = '=')))

/-- `detector._extract_array_block` inner loop: starting on a `[`, walk with
bracket-depth counting and return the slice up to the matching `]`. -/
def extractGo : Str → Nat → Str → Option Str
  | [], _, _ => none
  | c :: rest, depth, acc =>
    if c = '[' then extractGo rest (depth + 1) (acc ++ [c])
    else if c = ']' then
      if depth = 1 then some (acc ++ [c]) else extractGo rest (depth - 1) (acc ++ [c])
    else extractGo rest depth (acc ++ [c])

/-- `detector._extract_array_block`: `text.index("[", bracket_pos)` then the
depth-counting loop (`none` when no `[` or no balancing `]` exists). -/
def _extract_array_block (text : Str) (bracket_pos : Nat) : Option Str :=
  match (text.drop bracket_pos).dropWhile (· ≠ '[') with
  | [] => none
  | s => extractGo s 0 []

/-- The brace-depth loop of `detector._find_last_object_in_array`, counting
the top-level `{...}` groups it appends to `brace_positions` (depth is a
Python `int`; `started` models `current_start >= 0`). -/
def braceGroupGo : Str → Int → Bool → Nat → Nat
  | [], _, _, count => count
  | c :: rest, depth, started, count =>
    if c = '{' then braceGroupGo rest (depth + 1) (started || depth = 0) count
    else if c = '}' then
      if depth - 1 = 0 && started then braceGroupGo rest (depth - 1) started (count + 1)
      else braceGroupGo rest (depth - 1) started count
    else braceGroupGo rest depth started count

/-- Number of object literals in an array slice: the length of the
`brace_positions` list `_find_last_object_in_array` builds over it. -/
def objectLiteralCount (array_text : Str) : Nat := braceGroupGo array_text 0 false 0

/-- The `project_keywords` tuple of `_detect_project_listing_code`. -/
def codeProjectKeywords : List Str :=
  [("project").data, ("work").data, ("portfolio").data, ("card").data,
   ("item").data, ("folio").data]

/-- The per-match candidate step of `_detect_project_listing_code`
(detector.py lines 510-523) for one named-array regex match, given the
matched identifier and the extracted array slice: require a domain keyword
in `var_name.lower()` and at least two `title`- and `description`-key
matches, and record `title_count` — the value that becomes the winning
candidate's `entry_count` (lines 553-554, 595). -/
def codeArrayCandidate (var_name array_block : Str) : Option Nat :=
  if !(codeProjectKeywords.any (fun kw => containsSub kw (asciiLower var_name))) then none
  else
    let title_count := scanCount titlePat array_block
    let desc_count := scanCount descPat array_block
    if 2 ≤ title_count && 2 ≤ desc_count then some title_count else none

/-- `profile.PROJECT_KEYWORDS`. -/
def PROJECT_KEYWORDS : List Str :=
  [("project").data, ("featured").data, ("work").data, ("built").data,
   ("portfolio").data, ("showcase").data, ("highlights").data, ("creations").data,
   ("apps").data, ("tools").data, ("repos").data, ("repositories").data,
   ("open source").data, ("side project").data, ("what i").data, ("things i").data]

/-- `github\.com/\S+`. -/
def sigGithub : Matcher := seqM (litM "github.com/") (many1Greedy pyNonSpace)

/-- `https?://\S+\.git`. -/
def sigGitUrl : Matcher :=
  seqM (litM "http") (seqM (optM (charM (· = 's')))
    (seqM (litM "://") (seqM (many1Greedy pyNonSpace) (litM ".git"))))

/-- `\*\*[^*]+\*\*\s*[-:]\s*\S`. -/
def sigBold : Matcher :=
  seqM (litM "**") (seqM (many1Greedy (· ≠ '*')) (seqM (litM "**")
    (seqM (manyGreedy isPySpace) (seqM (charM (fun c => c = '-' || c = ':'))
      (seqM (manyGreedy isPySpace) (charM pyNonSpace))))))

/-- `\|\s*\S+\s*\|`. -/
def sigPipeRow : Matcher :=
  seqM (charM (· = '|')) (seqM (manyGreedy isPySpace)
    (seqM (many1Greedy pyNonSpace) (seqM (manyGreedy isPySpace) (charM (· = '|')))))

/-- `!\[.*?\]\(https://img\.shields\.io`. -/
def sigShield : Matcher :=
  seqM (litM "![") (seqM (manyLazy dotNoNL) (litM "](https://img.shields.io"))

/-- `<a\s+href=`. -/
def sigAhref : Matcher := seqM (litM "<a") (seqM (many1Greedy isPySpace) (litM "href="))

/-- `###\s+\S`. -/
def sigH3 : Matcher := seqM (litM "###") (seqM (many1Greedy isPySpace) (charM pyNonSpace))

/-- `\d+[.)]\s+\*?\*?\[?\w`. -/
def sigNumbered : Matcher :=
  seqM (many1Greedy Char.isDigit) (seqM (charM (fun c => c = '.' || c = ')'))
    (seqM (many1Greedy isPySpace) (seqM (optM (charM (· = '*')))
      (seqM (optM (charM (· = '*'))) (seqM (optM (charM (· = '['))) (charM pyWord))))))

/-- `\[.+?\]\(https?://github\.com/`. -/
def sigMdGithub : Matcher :=
  seqM (litM "[") (seqM (many1Lazy dotNoNL) (seqM (litM "](http")
    (seqM (optM (charM (· = 's'))) (litM "://github.com/"))))

/-- `<details>`. -/
def sigDetails : Matcher := litM "<details>"

/-- `<summary>`. -/
def sigSummary : Matcher := litM "<summary>"

/-- `repo|demo|source|code`. -/
def sigRepoDemo : Matcher :=
  altM (litM "repo") (altM (litM "demo") (altM (litM "source") (litM "code")))

/-- `profile.PROJECT_CONTENT_SIGNALS`, in source order. -/
def PROJECT_CONTENT_SIGNALS : List Matcher :=
  [sigGithub, sigGitUrl, sigBold, sigPipeRow, sigShield, sigAhref,
   sigH3, sigNumbered, sigMdGithub, sigDetails, sigSummary, sigRepoDemo]

/-- `profile._score_project_likeness`: +3.0 once when the lowercased heading
contains a project keyword (the loop `break`s after the first hit); for the
lowercased body, `min(count, 3) * 0.5` per signal pattern; and additionally
`min(github_count, 5) * 0.5` for `github\.com/\S+` matches. Scores are
halves of integers, represented exactly in `ℚ` (as they are in floats). -/
def _score_project_likeness (heading text : Str) : ℚ :=
  let headingBonus : ℚ :=
    if PROJECT_KEYWORDS.any (fun kw => containsSub kw (asciiLower heading)) then 3 else 0
  let combined := asciiLower text
  let signalSum : ℚ :=
    (PROJECT_CONTENT_SIGNALS.map
      (fun m => ((min (scanCount m combined) 3 : ℕ) : ℚ) * (1 / 2))).sum
  headingBonus + signalSum + ((min (scanCount sigGithub combined) 5 : ℕ) : ℚ) * (1 / 2)

/-- A document section as `profile.split_into_sections` produces it:
`(heading, start_line, end_line, text)`. -/
abbrev Section := Str × Nat × Nat × Str

/-- Score of a section tuple. -/
def sectionScore (s : Section) : ℚ := _score_project_likeness s.1 s.2.2.2

/-- The selection loop of `profile.detect_project_section`: strict `>`
keeps the first section attaining the running maximum. -/
def selectBestSection : List Section → ℚ → Option Section → ℚ × Option Section
  | [], best_score, best_section => (best_score, best_section)
  | sec :: rest, best_score, best_section =>
    if sectionScore sec > best_score then selectBestSection rest (sectionScore sec) (some sec)
    else selectBestSection rest best_score best_section

/-- `profile.detect_project_section`: run the loop from `(0.0, None)`, then
return the best section only when `best_score >= 2.0`. -/
def detect_project_section (sections : List Section) : Option Section :=
  let r := selectBestSection sections 0 none
  if 2 ≤ r.1 && r.2.isSome then r.2 else none

/-- `config.ProjectConfig` (the fields `_construct_table_entry` reads). -/
structure ProjectConfig where
  title : Str
  description : Str
  repo_url : Str
  demo_url : Str := []
  tech_stack : List Str := []
  tags : List Str := []

/-- `profile._construct_table_entry`: non-blank cells of the sample row
(`[c.strip() for c in sample.split("|") if c.strip()]`), then title(+link),
description and tech values padded with empty strings to the cell count,
joined back with `" | "` between pipes. -/
def _construct_table_entry (project : ProjectConfig) (sample : Str) : Str :=
  let cols := ((splitOnChar '|' sample).map pyStrip).filter (fun c => !c.isEmpty)
  let col_count := cols.length
  let firstVal : Str :=
    if !project.repo_url.isEmpty then
      ("[").data ++ project.title ++ ("](").data ++ project.repo_url ++ (")").data
    else project.title
  let values : List Str :=
    (if 1 ≤ col_count then [firstVal] else []) ++
    (if 2 ≤ col_count then [project.description] else []) ++
    (if 3 ≤ col_count then
      [if !project.tech_stack.isEmpty then joinSep (", ").data project.tech_stack else []]
     else [])
  let values := values ++ List.replicate (col_count - values.length) []
  ("| ").data ++ joinSep (" | ").data (values.take col_count) ++ (" |").data

/-- Number of `'|'` characters of a string (`s.count("|")`). -/
def countPipes (s : Str) : Nat := (s.filter (· = '|')).length

/-- The score of `_score_project_likeness` measured in half-points
(`score * 2`), a `Nat`; used to evaluate concrete scores. -/
def scoreHalfUnits (heading text : Str) : Nat :=
  (if PROJECT_KEYWORDS.any (fun kw => containsSub kw (asciiLower heading)) then 6 else 0)
    + (PROJECT_CONTENT_SIGNALS.map (fun m => min (scanCount m (asciiLower text)) 3)).sum
    + min (scanCount sigGithub (asciiLower text)) 5

/-- A code file whose `projects` array objects each contain `title`,
`subtitle` and `description` keys; `subtitle:` also matches the
`title\s*[:=]` pattern, so the title-key match count is twice the object
count. The array bracket sits at index 17. -/
def subtitleArrayFile : Str :=
  ("const projects = [\n  \x7btitle: \"A\", subtitle: \"a\", description: \"da\"\x7d,\n  \x7btitle: \"B\", subtitle: \"b\", description: \"db\"\x7d,\n]\n").data

/-- The specification's example listing
`const projects = [{title:"A",description:"d1"},{title:"B",description:"d2"}];`
(array bracket at index 17). -/
def specExampleArrayFile : Str :=
  ("const projects = [\x7btitle:\"A\",description:\"d1\"\x7d,\x7btitle:\"B\",description:\"d2\"\x7d];").data

/-- A section body holding three GitHub links and nothing else. -/
def threeLinksBody : Str :=
  ("github.com/aa/xx github.com/aa/yy github.com/aa/zz").data

/-- The same body with a fourth GitHub link appended. -/
def fourLinksBody : Str :=
  ("github.com/aa/xx github.com/aa/yy github.com/aa/zz github.com/aa/ww").data

set_option maxRecDepth 40000

theorem countPipes_append (a b : Str) : countPipes (a ++ b) = countPipes a + countPipes b := by
  simp [countPipes]

theorem countPipes_joinSep (sep : Str) (hsep : countPipes sep = 0) :
    ∀ l : List Str, (∀ x ∈ l, countPipes x = 0) → countPipes (joinSep sep l) = 0
  | [], _ => by simp [joinSep, countPipes]
  | [x], h => by simpa [joinSep] using h x (by simp)
  | x :: y :: xs, h => by
    have hx := h x (by simp)
    have hrest := countPipes_joinSep sep hsep (y :: xs) (fun t ht => h t (by simp [ht]))
    rw [show joinSep sep (x :: y :: xs) = x ++ sep ++ joinSep sep (y :: xs) from rfl,
      countPipes_append, countPipes_append, hx, hsep, hrest]

theorem countPipes_joinSep_sep1 (sep : Str) (hsep : countPipes sep = 1) :
    ∀ l : List Str, (∀ x ∈ l, countPipes x = 0) → l ≠ [] →
      countPipes (joinSep sep l) = l.length - 1
  | [], _, hne => absurd rfl hne
  | [x], h, _ => by simpa [joinSep] using h x (by simp)
  | x :: y :: xs, h, _ => by
    have hx := h x (by simp)
    have hrest := countPipes_joinSep_sep1 sep hsep (y :: xs)
      (fun t ht => h t (by simp [ht])) (by simp)
    rw [show joinSep sep (x :: y :: xs) = x ++ sep ++ joinSep sep (y :: xs) from rfl,
      countPipes_append, countPipes_append, hx, hsep, hrest]
    simp only [List.length_cons]
    omega

theorem lastMatchFold_all_none (marker : Str) :
    ∀ (ls : List Str) (i : Nat) (acc : Option Nat),
      (ls.all fun l => !containsSub marker l) = true → lastMatchFold marker ls i acc = acc
  | [], _, _, _ => rfl
  | l :: ls, i, acc, h => by
    rw [List.all_cons, Bool.and_eq_true, Bool.not_eq_true'] at h
    rw [lastMatchFold, h.1]
    simpa using lastMatchFold_all_none marker ls (i + 1) acc h.2

theorem lastMatchFold_append (marker : Str) :
    ∀ (as bs : List Str) (i : Nat) (acc : Option Nat),
      lastMatchFold marker (as ++ bs) i acc
        = lastMatchFold marker bs (i + as.length) (lastMatchFold marker as i acc)
  | [], bs, i, acc => by simp [lastMatchFold]
  | a :: as, bs, i, acc => by
    have h := lastMatchFold_append marker as bs (i + 1)
      (if containsSub marker a then some (i + 1) else acc)
    simp only [List.cons_append, lastMatchFold, List.length_cons]
    rw [show i + (as.length + 1) = i + 1 + as.length from by omega]
    exact h

theorem lastMatchFold_last (marker : Str) (lines : List Str) (i : Nat)
    (hi : i < lines.length)
    (hcontain : containsSub marker (lines.get ⟨i, hi⟩) = true)
    (hlast : ((lines.drop (i + 1)).all fun l => !containsSub marker l) = true) :
    lastMatchFold marker lines 0 none = some (i + 1) := by
  simp only [List.get_eq_getElem] at hcontain
  have hsplit : lines = lines.take (i + 1) ++ lines.drop (i + 1) :=
    (List.take_append_drop (i + 1) lines).symm
  have htk : lines.take (i + 1) = lines.take i ++ [lines[i]] := by
    rw [List.take_succ]
    simp [List.getElem?_eq_getElem hi]
  have hlen1 : (lines.take i).length = i := by
    rw [List.length_take]
    omega
  have hinner : lastMatchFold marker (lines.take (i + 1)) 0 none = some (i + 1) := by
    rw [htk, lastMatchFold_append]
    simp [lastMatchFold, hcontain, hlen1]
  calc lastMatchFold marker lines 0 none
      = lastMatchFold marker (lines.take (i + 1) ++ lines.drop (i + 1)) 0 none := by
        rw [← hsplit]
    _ = some (i + 1) := by
        rw [lastMatchFold_append, hinner, lastMatchFold_all_none marker _ _ _ hlast]

theorem splitlinesKeepends_cons_nobreak (c : Char) (rest : List Char)
    (hbrk : ¬ isLineBreak c = true) :
    splitlinesKeepends (c :: rest)
      = match splitlinesKeepends rest with
        | [] => [[c]]
        | l :: ls => (c :: l) :: ls := by
  cases rest with
  | nil => rw [splitlinesKeepends.eq_3, if_neg hbrk]
  | cons c2 rest2 => rw [splitlinesKeepends.eq_2, if_neg hbrk]

theorem splitlines_flatten (s : Str) : (splitlinesKeepends s).flatten = s := by
  induction s using splitlinesKeepends.induct with
  | case1 => rw [splitlinesKeepends.eq_1]; rfl
  | case2 c hbrk c2 rest2 hcond ih =>
    rw [splitlinesKeepends.eq_2, if_pos hbrk, if_pos hcond]
    simp only [Bool.and_eq_true, decide_eq_true_eq] at hcond
    obtain ⟨rfl, rfl⟩ := hcond
    simpa using ih
  | case3 c hbrk c2 rest2 hcond ih =>
    rw [splitlinesKeepends.eq_2, if_pos hbrk, if_neg hcond]
    simpa using ih
  | case4 c hbrk =>
    rw [splitlinesKeepends.eq_3, if_pos hbrk]
    rfl
  | case5 c rest hbrk hemp ih =>
    rw [splitlinesKeepends_cons_nobreak c rest hbrk, hemp]
    rw [hemp] at ih
    simp_all
  | case6 c rest hbrk x xs hcons ih =>
    rw [splitlinesKeepends_cons_nobreak c rest hbrk, hcons]
    rw [hcons] at ih
    simp_all

theorem score_eq_half (heading text : Str) :
    _score_project_likeness heading text = (scoreHalfUnits heading text : ℚ) / 2 := by
  unfold _score_project_likeness scoreHalfUnits
  by_cases hkw : (PROJECT_KEYWORDS.any fun kw => containsSub kw (asciiLower heading)) = true
  · simp only [hkw, if_true, PROJECT_CONTENT_SIGNALS, List.map_cons, List.map_nil,
      List.sum_cons, List.sum_nil]
    push_cast
    ring
  · simp only [hkw, if_false, PROJECT_CONTENT_SIGNALS, List.map_cons, List.map_nil,
      List.sum_cons, List.sum_nil]
    push_cast
    ring

/-- C3: `detect_project_listing` tries the five per-format detectors in the
fixed order code → html → data → markdown → directory-content and returns
the first non-null result, so exactly one hint (or none) is selected and a
later-priority detector's result is never returned when an earlier one
succeeds. -/
theorem listing_selector_first_non_null {α β : Type}
    (detectCode detectHtml detectData detectMarkdown detectContent : α → Option β) (x : α) :
    detect_project_listing detectCode detectHtml detectData detectMarkdown detectContent x
      = ([detectCode x, detectHtml x, detectData x, detectMarkdown x,
          detectContent x].findSome? id) := by
  simp only [detect_project_listing]
  cases detectCode x <;> cases detectHtml x <;> cases detectData x <;>
    cases detectMarkdown x <;> cases detectContent x <;> simp [List.findSome?]

/-- C2: evaluation of `_sanitize_path` at the specification's inputs, with
repository root `/r/repo`: absolute paths and `"../secrets.txt"` are
rejected and `"data/projects.json"` is accepted, but the relative path
`"../repo2/f"` — which resolves to `/r/repo2/f`, outside the root — is
accepted because the containment check is a string-prefix comparison. -/
theorem sanitize_path_escape_bug_eval :
    _sanitize_path [("r").data, ("repo").data] (("/etc/passwd").data)
        = Except.error (("Patch path must be relative, got: /etc/passwd").data)
    ∧ _sanitize_path [("r").data, ("repo").data] (("data/projects.json").data)
        = Except.ok [("r").data, ("repo").data, ("data").data, ("projects.json").data]
    ∧ _sanitize_path [("r").data, ("repo").data] (("../secrets.txt").data)
        = Except.error (("Path escapes repo root: ../secrets.txt").data)
    ∧ _sanitize_path [("r").data, ("repo").data] (("../repo2/f").data)
        = Except.ok [("r").data, ("repo2").data, ("f").data]
    ∧ ¬ List.IsPrefix [("r").data, ("repo").data]
        [("r").data, ("repo2").data, ("f").data] := by
  refine ⟨by decide, by decide, by decide, by decide, ?_⟩
  rw [← List.isPrefixOf_iff_prefix]
  decide

/-- C9: a relative path that resolves outside the repository root which
`_sanitize_path` nevertheless accepts: with root `/a/myrepo`, the path
`"../myrepo2/x.txt"` resolves to `/a/myrepo2/x.txt`, whose path string has
the root's path string as a prefix even though the root is not a component
prefix of the target, so the sanitizer returns it instead of raising. -/
theorem sanitize_path_string_prefix_escape :
    _sanitize_path [("a").data, ("myrepo").data] (("../myrepo2/x.txt").data)
        = Except.ok [("a").data, ("myrepo2").data, ("x.txt").data]
    ∧ (pathStr (normalizeComps [("a").data, ("myrepo").data])).isPrefixOf
        (pathStr [("a").data, ("myrepo2").data, ("x.txt").data]) = true
    ∧ ¬ List.IsPrefix [("a").data, ("myrepo").data]
        [("a").data, ("myrepo2").data, ("x.txt").data] := by
  refine ⟨by decide, by decide, ?_⟩
  rw [← List.isPrefixOf_iff_prefix]
  decide

/-- C1: for every starting file state and every `PatchAction` on which the
applier succeeds, the bytes `apply_patches` writes are exactly the content
`_simulate_patch` predicts for the same action and the same starting
content (for a successful `create` the file did not exist, so the starting
content is the empty string, as `_compute_diff` supplies). -/
theorem apply_matches_preview_simulation (existing : Option Str) (patch : PatchAction)
    (out : Str) (h : applyPatchContent existing patch = Except.ok out) :
    out = simulatePatch (existing.getD []) patch := by
  obtain ⟨ppath, act, pmark, ptl, pcontent⟩ := patch
  cases act <;> cases existing <;>
      dsimp only [applyPatchContent, simulatePatch, Option.getD_some, Option.getD_none] at h ⊢
  case create.none => exact (Except.ok.inj h).symm
  case create.some => exact Except.noConfusion h
  case replace.none => exact Except.noConfusion h
  case replace.some orig => exact (Except.ok.inj h).symm
  case append.none => exact Except.noConfusion h
  case append.some orig => exact (Except.ok.inj h).symm
  case insert_after_line.none => exact Except.noConfusion h
  case insert_after_line.some orig =>
    by_cases ht : strOptTruthy pmark = true
    · rw [if_neg (by simp [ht])] at h
      rcases hf : lastMatchFold (pmark.getD []) (splitlinesKeepends orig) 0 none with _ | idx
      · rw [hf] at h
        exact Except.noConfusion h
      · rw [hf] at h
        exact (Except.ok.inj h).symm
    · rw [if_pos (by simp_all)] at h
      exact Except.noConfusion h
  case insert_before_line.none => exact Except.noConfusion h
  case insert_before_line.some orig =>
    rcases ptl with _ | tl <;> dsimp only at h ⊢
    · by_cases ht : strOptTruthy pmark = true
      · rw [if_pos ht] at h ⊢
        rcases hf : firstMatchIdx (pmark.getD []) (splitlinesKeepends orig) 0 with _ | idx
        · rw [hf] at h
          exact Except.noConfusion h
        · rw [hf] at h
          exact (Except.ok.inj h).symm
      · rw [if_neg ht] at h
        exact Except.noConfusion h
    · by_cases hr : ((tl - 1 : Int) < 0 || (tl - 1 : Int) > ((splitlinesKeepends orig).length : Int)) = true
      · rw [if_pos hr] at h
        exact Except.noConfusion h
      · rw [if_neg hr] at h
        rw [if_neg hr]
        exact (Except.ok.inj h).symm

/-- Witness for C1: an `insert_after_line` patch applied to `"x\ny\n"`. -/
theorem apply_matches_preview_simulation_witness :
    applyPatchContent (some (("x\ny\n").data))
        { path := ("f.md").data, action := PAction.insert_after_line,
          insert_after_marker := some (("x").data), target_line := none,
          content := ("NEW").data }
      = Except.ok (("x\nNEW\ny\n").data)
    ∧ ("x\nNEW\ny\n").data
      = simulatePatch ((some (("x\ny\n").data)).getD [])
          { path := ("f.md").data, action := PAction.insert_after_line,
            insert_after_marker := some (("x").data), target_line := none,
            content := ("NEW").data } :=
  ⟨by decide,
   apply_matches_preview_simulation (some (("x\ny\n").data))
     { path := ("f.md").data, action := PAction.insert_after_line,
       insert_after_marker := some (("x").data), target_line := none,
       content := ("NEW").data }
     (("x\nNEW\ny\n").data) (by decide)⟩

/-- C5: an `insert_after_line` action whose marker occurs as a substring of
more than one line inserts the content after the **last** line containing
the marker: if line `i` (0-based) contains the marker, no later line does,
and some earlier line also contains it, the applier succeeds and inserts at
index `i + 1`. -/
theorem insert_after_line_targets_last_match (orig marker content path : Str) (i : Nat)
    (hm : marker ≠ [])
    (hi : i < (splitlinesKeepends orig).length)
    (hcontain : containsSub marker ((splitlinesKeepends orig).get ⟨i, hi⟩) = true)
    (hlast : (((splitlinesKeepends orig).drop (i + 1)).all
      fun l => !containsSub marker l) = true)
    (hrepeat : (((splitlinesKeepends orig).take i).any
      fun l => containsSub marker l) = true) :
    applyPatchContent (some orig)
        { path := path, action := PAction.insert_after_line,
          insert_after_marker := some marker, target_line := none, content := content }
      = Except.ok ((pyInsert (i + 1) (ensureNL content) (splitlinesKeepends orig)).flatten) := by
  have hfold := lastMatchFold_last marker (splitlinesKeepends orig) i hi hcontain hlast
  have ht : strOptTruthy (some marker) = true := by
    simp [strOptTruthy, hm]
  dsimp only [applyPatchContent]
  rw [if_neg (by simp [ht]), show (some marker).getD [] = marker from rfl, hfold]

/-- Witness for C5: the marker `"MARK"` occurs on lines 3 and 7 (1-based) of
an eight-line file; the content lands after line 7, not line 3. -/
theorem insert_after_line_targets_last_match_witness :
    (("MARK").data ≠ ([] : Str))
    ∧ (6 < (splitlinesKeepends (("l1\nl2\nxMARKx\nl4\nl5\nl6\nyMARKy\nl8\n").data)).length)
    ∧ applyPatchContent (some (("l1\nl2\nxMARKx\nl4\nl5\nl6\nyMARKy\nl8\n").data))
        { path := ("f.md").data, action := PAction.insert_after_line,
          insert_after_marker := some (("MARK").data), target_line := none,
          content := ("NEW").data }
      = Except.ok ((pyInsert 7 (ensureNL (("NEW").data))
          (splitlinesKeepends (("l1\nl2\nxMARKx\nl4\nl5\nl6\nyMARKy\nl8\n").data))).flatten) :=
  ⟨by decide, by decide,
   insert_after_line_targets_last_match
     (("l1\nl2\nxMARKx\nl4\nl5\nl6\nyMARKy\nl8\n").data) (("MARK").data)
     (("NEW").data) (("f.md").data) 6
     (by decide) (by decide) (by decide) (by decide) (by decide)⟩

/-- C6: a marker not found anywhere in the target file and a `target_line`
outside the valid range are reported as the two distinct `PatchError`
messages raised by `apply_patches` (`"Marker not found in ..."` vs
`"target_line ... out of range ..."`), never silently skipped; the two
messages can never coincide. -/
theorem marker_and_range_errors_distinct (orig marker content path : Str) (tl : Int)
    (hm : marker ≠ [])
    (habsent : ((splitlinesKeepends orig).all fun l => !containsSub marker l) = true)
    (hrange : tl - 1 < 0 ∨ ((splitlinesKeepends orig).length : Int) < tl - 1) :
    applyPatchContent (some orig)
        { path := path, action := PAction.insert_after_line,
          insert_after_marker := some marker, target_line := none, content := content }
      = Except.error (markerNotFoundMsg path marker)
    ∧ applyPatchContent (some orig)
        { path := path, action := PAction.insert_before_line,
          insert_after_marker := some marker, target_line := some tl, content := content }
      = Except.error (lineOutOfRangeMsg tl path (splitlinesKeepends orig).length)
    ∧ ∀ (p' m' : Str) (tl' : Int) (n' : Nat),
        markerNotFoundMsg p' m' ≠ lineOutOfRangeMsg tl' p' n' := by
  refine ⟨?_, ?_, ?_⟩
  · have ht : strOptTruthy (some marker) = true := by simp [strOptTruthy, hm]
    have hfold := lastMatchFold_all_none marker (splitlinesKeepends orig) 0 none habsent
    dsimp only [applyPatchContent]
    rw [if_neg (by simp [ht]), show (some marker).getD [] = marker from rfl, hfold]
  · dsimp only [applyPatchContent]
    rw [if_pos (by rcases hrange with h | h <;> simp [h] <;> omega)]
  · intro p' m' tl' n' hcontra
    have hhead := congrArg List.head? hcontra
    simp [markerNotFoundMsg, lineOutOfRangeMsg] at hhead

/-- Witness for C6: marker `"zz"` is absent from `"a\nb\n"` and
`target_line = 99` is out of range for its two lines. -/
theorem marker_and_range_errors_distinct_witness :
    (("zz").data ≠ ([] : Str))
    ∧ applyPatchContent (some (("a\nb\n").data))
        { path := ("f.md").data, action := PAction.insert_after_line,
          insert_after_marker := some (("zz").data), target_line := none,
          content := ("NEW").data }
      = Except.error (markerNotFoundMsg (("f.md").data) (("zz").data))
    ∧ applyPatchContent (some (("a\nb\n").data))
        { path := ("f.md").data, action := PAction.insert_before_line,
          insert_after_marker := some (("zz").data), target_line := some 99,
          content := ("NEW").data }
      = Except.error (lineOutOfRangeMsg 99 (("f.md").data)
          (splitlinesKeepends (("a\nb\n").data)).length) :=
  ⟨by decide,
   (marker_and_range_errors_distinct (("a\nb\n").data) (("zz").data) (("NEW").data)
     (("f.md").data) 99 (by decide) (by decide) (Or.inr (by decide))).1,
   (marker_and_range_errors_distinct (("a\nb\n").data) (("zz").data) (("NEW").data)
     (("f.md").data) 99 (by decide) (by decide) (Or.inr (by decide))).2.1⟩

/-- C10: `_simulate_patch` is total and silently no-ops where the applier
raises: with a marker absent from every line, `insert_after_line` simulation
returns the content unchanged, and with an out-of-range `target_line`,
`insert_before_line` simulation returns the content unchanged — while
`apply_patches` raises the corresponding `PatchError` for the same actions
on the same content. -/
theorem simulate_silent_noop (orig marker content path : Str) (tl : Int)
    (hm : marker ≠ [])
    (habsent : ((splitlinesKeepends orig).all fun l => !containsSub marker l) = true)
    (hrange : tl - 1 < 0 ∨ ((splitlinesKeepends orig).length : Int) < tl - 1) :
    simulatePatch orig
        { path := path, action := PAction.insert_after_line,
          insert_after_marker := some marker, target_line := none, content := content }
      = orig
    ∧ simulatePatch orig
        { path := path, action := PAction.insert_before_line,
          insert_after_marker := some marker, target_line := some tl, content := content }
      = orig
    ∧ (applyPatchContent (some orig)
        { path := path, action := PAction.insert_after_line,
          insert_after_marker := some marker, target_line := none, content := content })
      = Except.error (markerNotFoundMsg path marker)
    ∧ (applyPatchContent (some orig)
        { path := path, action := PAction.insert_before_line,
          insert_after_marker := some marker, target_line := some tl, content := content })
      = Except.error (lineOutOfRangeMsg tl path (splitlinesKeepends orig).length) := by
  have hfold := lastMatchFold_all_none marker (splitlinesKeepends orig) 0 none habsent
  have ht : strOptTruthy (some marker) = true := by simp [strOptTruthy, hm]
  refine ⟨?_, ?_, ?_, ?_⟩
  · dsimp only [simulatePatch]
    rw [show (some marker).getD [] = marker from rfl, hfold]
    exact splitlines_flatten orig
  · dsimp only [simulatePatch]
    rw [if_pos (by rcases hrange with h | h <;> simp [h] <;> omega)]
    exact splitlines_flatten orig
  · dsimp only [applyPatchContent]
    rw [if_neg (by simp [ht]), show (some marker).getD [] = marker from rfl, hfold]
  · dsimp only [applyPatchContent]
    rw [if_pos (by rcases hrange with h | h <;> simp [h] <;> omega)]

/-- Witness for C10: the same inputs as the C6 witness, showing the silent
simulation no-op next to the applier's errors. -/
theorem simulate_silent_noop_witness :
    (("zz").data ≠ ([] : Str))
    ∧ simulatePatch (("a\nb\n").data)
        { path := ("f.md").data, action := PAction.insert_after_line,
          insert_after_marker := some (("zz").data), target_line := none,
          content := ("NEW").data }
      = ("a\nb\n").data
    ∧ simulatePatch (("a\nb\n").data)
        { path := ("f.md").data, action := PAction.insert_before_line,
          insert_after_marker := some (("zz").data), target_line := some 0,
          content := ("NEW").data }
      = ("a\nb\n").data :=
  ⟨by decide,
   (simulate_silent_noop (("a\nb\n").data) (("zz").data) (("NEW").data)
     (("f.md").data) 0 (by decide) (by decide) (by norm_num)).1,
   (simulate_silent_noop (("a\nb\n").data) (("zz").data) (("NEW").data)
     (("f.md").data) 0 (by decide) (by decide) (by norm_num)).2.1⟩

theorem countPipes_row (values : List Str) (n : Nat) (h1 : 1 ≤ n)
    (hlen : (values.take n).length = n)
    (hall : ∀ x ∈ values.take n, countPipes x = 0) :
    countPipes (("| ").data ++ joinSep ((" | ").data) (values.take n) ++ ((" |").data))
      = n + 1 := by
  rw [countPipes_append, countPipes_append]
  rw [countPipes_joinSep_sep1 ((" | ").data) (by decide) (values.take n) hall
    (by intro hh; rw [hh] at hlen; simp at hlen; omega)]
  rw [hlen]
  have h2 : countPipes (("| ").data) = 1 := by decide
  have h3 : countPipes ((" |").data) = 1 := by decide
  rw [h2, h3]
  omega

/-- C4 (amended): for a project whose fields contain no pipe characters and
a sample row with at least one non-blank cell, the synthesized table entry
contains (number of non-blank pipe-separated cells of the sample) + 1 pipe
characters. This equals the sample's own pipe count exactly when the
non-blank cell count is one less than the sample's pipe count (the usual
well-formed row), but not in general — blank cells are dropped. -/
theorem table_entry_pipe_count (project : ProjectConfig) (sample : Str)
    (htitle : countPipes project.title = 0)
    (hdesc : countPipes project.description = 0)
    (hrepo : countPipes project.repo_url = 0)
    (htech : ∀ t ∈ project.tech_stack, countPipes t = 0)
    (hcols : 1 ≤ (((splitOnChar '|' sample).map pyStrip).filter
      (fun c => !c.isEmpty)).length) :
    countPipes (_construct_table_entry project sample)
      = (((splitOnChar '|' sample).map pyStrip).filter
          (fun c => !c.isEmpty)).length + 1 := by
  simp only [_construct_table_entry]
  set cols := ((splitOnChar '|' sample).map pyStrip).filter (fun c => !c.isEmpty) with hcolsdef
  set n := cols.length with hndef
  set v1 : Str :=
    (if !project.repo_url.isEmpty then
      ("[").data ++ project.title ++ ("](").data ++ project.repo_url ++ (")").data
    else project.title) with hv1def
  set vtech : Str :=
    (if !project.tech_stack.isEmpty then joinSep ((", ").data) project.tech_stack
     else []) with hvtechdef
  set values0 : List Str :=
    (if 1 ≤ n then [v1] else []) ++ (if 2 ≤ n then [project.description] else []) ++
      (if 3 ≤ n then [vtech] else []) with hv0def
  have hv1 : countPipes v1 = 0 := by
    rw [hv1def]
    split
    · have ha : countPipes (("[").data) = 0 := by decide
      have hb : countPipes (("](").data) = 0 := by decide
      have hc : countPipes (((")").data : Str)) = 0 := by decide
      rw [countPipes_append, countPipes_append, countPipes_append, countPipes_append,
        ha, hb, hc, htitle, hrepo]
    · exact htitle
  have hvtech : countPipes vtech = 0 := by
    rw [hvtechdef]
    split
    · exact countPipes_joinSep ((", ").data) (by decide) project.tech_stack htech
    · rfl
  have hv0len : values0.length = min n 3 := by
    rw [hv0def]
    simp only [List.length_append]
    split_ifs <;> simp <;> omega
  have hvallen : (values0 ++ List.replicate (n - values0.length) ([] : Str)).length = n := by
    simp only [List.length_append, List.length_replicate, hv0len]
    omega
  have hlen : ((values0 ++ List.replicate (n - values0.length) ([] : Str)).take n).length
      = n := by
    rw [List.length_take, hvallen]
    omega
  have hall : ∀ x ∈ (values0 ++ List.replicate (n - values0.length) ([] : Str)).take n,
      countPipes x = 0 := by
    intro x hx
    have hx' := List.take_subset n _ hx
    simp only [List.mem_append] at hx'
    rcases hx' with hx' | hx'
    · rw [hv0def] at hx'
      simp only [List.mem_append] at hx'
      rcases hx' with (hx' | hx') | hx' <;> split at hx' <;>
        simp only [List.mem_singleton, List.not_mem_nil] at hx' <;>
        first
          | exact absurd hx' (by simp)
          | (subst hx'; first | exact hv1 | exact hdesc | exact hvtech)
    · rw [List.eq_of_mem_replicate hx']
      rfl
  exact countPipes_row _ n hcols hlen hall

/-- Counterexample for C4: the sample table row `"| A |  | C |"` (blank
middle cell) has four pipes, but the synthesized entry has three — the
pipe count is not preserved. -/
theorem table_entry_pipe_count_counterexample :
    countPipes (_construct_table_entry
        { title := ("T").data, description := ("D").data, repo_url := ("u").data,
          demo_url := [], tech_stack := [], tags := [] }
        (("| A |  | C |").data)) = 3
    ∧ countPipes (("| A |  | C |").data) = 4
    ∧ (3 : Nat) ≠ 4 :=
  ⟨by decide, by decide, by decide⟩

/-- Witness for C4's amended theorem: the two-cell sample `"| A | B |"`. -/
theorem table_entry_pipe_count_witness :
    (1 ≤ (((splitOnChar '|' (("| A | B |").data)).map pyStrip).filter
      (fun c => !c.isEmpty)).length)
    ∧ countPipes (_construct_table_entry
        { title := ("T").data, description := ("D").data, repo_url := ("u").data,
          demo_url := [], tech_stack := [], tags := [] }
        (("| A | B |").data))
      = (((splitOnChar '|' (("| A | B |").data)).map pyStrip).filter
          (fun c => !c.isEmpty)).length + 1 :=
  ⟨by decide,
   table_entry_pipe_count
     { title := ("T").data, description := ("D").data, repo_url := ("u").data,
       demo_url := [], tech_stack := [], tags := [] }
     (("| A | B |").data)
     (by decide) (by decide) (by decide) (fun t ht => absurd ht (by simp)) (by decide)⟩

/-- C7 (amended): a qualifying named code array candidate (domain keyword in
the identifier, at least two title-key and two description-key pattern
matches in the array slice) is reported with `entry_count` equal to the
number of `title\s*[:=]` matches in the slice — which equals the number of
object literals only when each object contributes exactly one title-key
match. -/
theorem code_listing_entry_count (var_name array_block : Str) (n : Nat)
    (h : codeArrayCandidate var_name array_block = some n) :
    n = scanCount titlePat array_block
    ∧ 2 ≤ scanCount titlePat array_block
    ∧ 2 ≤ scanCount descPat array_block
    ∧ (scanCount titlePat array_block = objectLiteralCount array_block →
        n = objectLiteralCount array_block) := by
  simp only [codeArrayCandidate] at h
  split at h
  · exact absurd h (by simp)
  · split at h
    · next hcond =>
      simp only [Bool.and_eq_true, decide_eq_true_eq] at hcond
      obtain rfl : scanCount titlePat array_block = n := Option.some.inj h
      exact ⟨rfl, hcond.1, hcond.2, fun he => he⟩
    · exact absurd h (by simp)

/-- Witness for C7's amended theorem: the specification's own example file,
where each object has exactly one title key, so `entry_count = 2` equals
the object count. -/
theorem code_listing_entry_count_witness :
    codeArrayCandidate (("projects").data)
        ((_extract_array_block specExampleArrayFile 17).getD []) = some 2
    ∧ (2 = scanCount titlePat ((_extract_array_block specExampleArrayFile 17).getD [])
       ∧ 2 ≤ scanCount titlePat ((_extract_array_block specExampleArrayFile 17).getD [])
       ∧ 2 ≤ scanCount descPat ((_extract_array_block specExampleArrayFile 17).getD [])
       ∧ (scanCount titlePat ((_extract_array_block specExampleArrayFile 17).getD [])
            = objectLiteralCount ((_extract_array_block specExampleArrayFile 17).getD []) →
          2 = objectLiteralCount ((_extract_array_block specExampleArrayFile 17).getD []))) :=
  ⟨by decide,
   code_listing_entry_count (("projects").data)
     ((_extract_array_block specExampleArrayFile 17).getD []) 2 (by decide)⟩

/-- Counterexample for C7: in `subtitleArrayFile` the array holds two
homogeneous object literals satisfying every hypothesis of the claim
(keyword identifier, ≥ 2 title-like and ≥ 2 description-like keys), yet the
candidate's `entry_count` is 4, not the object count 2: `subtitle:` also
matches the title-key pattern. -/
theorem code_listing_entry_count_counterexample :
    codeArrayCandidate (("projects").data)
        ((_extract_array_block subtitleArrayFile 17).getD []) = some 4
    ∧ objectLiteralCount ((_extract_array_block subtitleArrayFile 17).getD []) = 2
    ∧ 2 ≤ objectLiteralCount ((_extract_array_block subtitleArrayFile 17).getD [])
    ∧ (4 : Nat) ≠ 2 :=
  ⟨by decide, by decide, by decide, by decide⟩

theorem selectBest_char :
    ∀ (l : List Section) (bs : ℚ) (b : Option Section) (bs' : ℚ) (s' : Section),
      selectBestSection l bs b = (bs', some s') →
      (b = some s' ∧ bs' = bs ∧ ∀ t ∈ l, sectionScore t ≤ bs)
      ∨ (∃ pre post, l = pre ++ s' :: post ∧ bs' = sectionScore s'
          ∧ bs < sectionScore s'
          ∧ (∀ t ∈ pre, sectionScore t < sectionScore s')
          ∧ (∀ t ∈ post, sectionScore t ≤ sectionScore s'))
  | [], bs, b, bs', s', h => by
    rw [selectBestSection] at h
    obtain ⟨rfl, rfl⟩ : bs = bs' ∧ b = some s' := Prod.mk.inj h
    exact Or.inl ⟨rfl, rfl, fun t ht => absurd ht (by simp)⟩
  | sec :: rest, bs, b, bs', s', h => by
    rw [selectBestSection] at h
    by_cases hgt : sectionScore sec > bs
    · rw [if_pos hgt] at h
      rcases selectBest_char rest (sectionScore sec) (some sec) bs' s' h with
        ⟨hb, hbs, hall⟩ | ⟨pre, post, hsplit, hbs, hlt, hpre, hpost⟩
      · obtain rfl : sec = s' := Option.some.inj hb
        exact Or.inr ⟨[], rest, by simp, hbs, hgt, by simp, hall⟩
      · refine Or.inr ⟨sec :: pre, post, by simp [hsplit], hbs, lt_trans hgt hlt, ?_, hpost⟩
        intro t ht
        rcases List.mem_cons.mp ht with rfl | ht'
        · exact hlt
        · exact hpre t ht'
    · rw [if_neg hgt] at h
      rcases selectBest_char rest bs b bs' s' h with
        ⟨hb, hbs, hall⟩ | ⟨pre, post, hsplit, hbs, hlt, hpre, hpost⟩
      · refine Or.inl ⟨hb, hbs, ?_⟩
        intro t ht
        rcases List.mem_cons.mp ht with rfl | ht'
        · exact le_of_not_lt hgt
        · exact hall t ht'
      · refine Or.inr ⟨sec :: pre, post, by simp [hsplit], hbs, hlt, ?_, hpost⟩
        intro t ht
        rcases List.mem_cons.mp ht with rfl | ht'
        · exact lt_of_le_of_lt (le_of_not_lt hgt) hlt
        · exact hpre t ht'

/-- C8 (amended): the score of a section is +3 once when its heading has a
project keyword, plus `min(count, 3) * 0.5` per body signal pattern, plus an
additional GitHub-link bonus `min(count, 5) * 0.5` (so GitHub links are not
capped at three occurrences); a section is returned only when its score is
at least 2.0, and the returned section is the first one in document order
attaining the maximal score. -/
theorem section_score_selection (sections : List Section) (s : Section)
    (h : detect_project_section sections = some s) :
    sectionScore s
      = (if PROJECT_KEYWORDS.any (fun kw => containsSub kw (asciiLower s.1)) then 3 else 0)
        + (PROJECT_CONTENT_SIGNALS.map
            (fun m => ((min (scanCount m (asciiLower s.2.2.2)) 3 : ℕ) : ℚ) * (1 / 2))).sum
        + ((min (scanCount sigGithub (asciiLower s.2.2.2)) 5 : ℕ) : ℚ) * (1 / 2)
    ∧ 2 ≤ sectionScore s
    ∧ ∃ pre post, sections = pre ++ s :: post
        ∧ (∀ t ∈ pre, sectionScore t < sectionScore s)
        ∧ (∀ t ∈ post, sectionScore t ≤ sectionScore s) := by
  refine ⟨rfl, ?_⟩
  unfold detect_project_section at h
  rcases hsel : selectBestSection sections 0 none with ⟨bs, b⟩
  rw [hsel] at h
  dsimp only at h
  by_cases hc : (decide (2 ≤ bs) && b.isSome) = true
  · rw [if_pos hc] at h
    simp only [Bool.and_eq_true, decide_eq_true_eq] at hc
    rw [h] at hsel
    rcases selectBest_char sections 0 none bs s hsel with
      ⟨hb, _, _⟩ | ⟨pre, post, hsplit, hbs, _, hpre, hpost⟩
    · exact Option.noConfusion hb
    · subst hbs
      exact ⟨hc.1, pre, post, hsplit, hpre, hpost⟩
  · rw [if_neg hc] at h
    exact Option.noConfusion h

/-- Counterexample for C8 as stated: two section bodies with identical
heading and identical per-pattern capped (≤ 3) signal counts receive
different scores (3.0 vs 3.5), because the GitHub-link bonus is capped at 5,
not 3 — so the score is not the claimed function of the heading keyword test
and the ≤ 3-capped pattern counts. -/
theorem section_score_formula_counterexample :
    (PROJECT_CONTENT_SIGNALS.map
        (fun m => min (scanCount m (asciiLower fourLinksBody)) 3))
      = (PROJECT_CONTENT_SIGNALS.map
        (fun m => min (scanCount m (asciiLower threeLinksBody)) 3))
    ∧ _score_project_likeness [] fourLinksBody
      ≠ _score_project_likeness [] threeLinksBody := by
  refine ⟨by decide, ?_⟩
  rw [score_eq_half, score_eq_half]
  rw [show scoreHalfUnits [] fourLinksBody = 7 from by decide,
    show scoreHalfUnits [] threeLinksBody = 6 from by decide]
  norm_num

/-- Witness for C8's amended theorem: a two-section document where the
`"My Projects"` section scores 5.0 and is selected over a zero-scoring
intro section. -/
theorem section_score_selection_witness :
    detect_project_section
        [((("Intro").data, 1, 2, ("hello there").data) : Section),
         ((("My Projects").data, 3, 9, threeLinksBody) : Section)]
      = some ((("My Projects").data, 3, 9, threeLinksBody) : Section)
    ∧ (sectionScore ((("My Projects").data, 3, 9, threeLinksBody) : Section)
        = (if PROJECT_KEYWORDS.any
              (fun kw => containsSub kw (asciiLower (("My Projects").data)))
           then 3 else 0)
          + (PROJECT_CONTENT_SIGNALS.map
              (fun m => ((min (scanCount m (asciiLower threeLinksBody)) 3 : ℕ) : ℚ)
                * (1 / 2))).sum
          + ((min (scanCount sigGithub (asciiLower threeLinksBody)) 5 : ℕ) : ℚ) * (1 / 2)
       ∧ 2 ≤ sectionScore ((("My Projects").data, 3, 9, threeLinksBody) : Section)
       ∧ ∃ pre post,
           [((("Intro").data, 1, 2, ("hello there").data) : Section),
            ((("My Projects").data, 3, 9, threeLinksBody) : Section)]
             = pre ++ ((("My Projects").data, 3, 9, threeLinksBody) : Section) :: post
           ∧ (∀ t ∈ pre, sectionScore t
               < sectionScore ((("My Projects").data, 3, 9, threeLinksBody) : Section))
           ∧ (∀ t ∈ post, sectionScore t
               ≤ sectionScore ((("My Projects").data, 3, 9, threeLinksBody) : Section))) := by
  have h1 : sectionScore ((("Intro").data, 1, 2, ("hello there").data) : Section) = 0 := by
    show _score_project_likeness (("Intro").data) (("hello there").data) = 0
    rw [score_eq_half, show scoreHalfUnits (("Intro").data) (("hello there").data) = 0
      from by decide]
    norm_num
  have h2 : sectionScore ((("My Projects").data, 3, 9, threeLinksBody) : Section) = 6 := by
    show _score_project_likeness (("My Projects").data) threeLinksBody = 6
    rw [score_eq_half, show scoreHalfUnits (("My Projects").data) threeLinksBody = 12
      from by decide]
    norm_num
  have hdet : detect_project_section
      [((("Intro").data, 1, 2, ("hello there").data) : Section),
       ((("My Projects").data, 3, 9, threeLinksBody) : Section)]
      = some ((("My Projects").data, 3, 9, threeLinksBody) : Section) := by
    norm_num [detect_project_section, selectBestSection, h1, h2]
  exact ⟨hdet, section_score_selection _ _ hdet⟩
